import Mathlib

/-! Verification of the sounding preprocessing transform in `preprocessing.py`.

The Python source works on a pandas DataFrame.  Records are embedded as
explicit structures, a pandas NaN cell as `Option.none`, fallible parsing
as `Option`, and the exception behaviour of `data_qc` (only
`FileNotFoundError` is caught) as `Except Unit`.
-/

namespace Seisuimaru

/-- A cell of one of the ten castable numeric columns, as seen by
`pd.to_numeric(errors="coerce")`: `num q` is a cell whose content coerces
to the number `q` (already numeric, or a numeric string), `str` a cell
whose content does not coerce to a number, `na` an empty cell (NaN). -/
inductive Cell where
  | num (q : ℚ)
  | str (s : String)
  | na
deriving DecidableEq

/-- One raw receiver sample (one CSV row), restricted to the columns that
`data_qc` reads: `OBS_Time`, `ST`, `SondeN`, `GF`, `N`, and the ten columns
that are later cast (`WD WS Height Xdistanc Ydistanc GeodetLat GeodetLon
Press0 Temp0 Humi0`).  `st` is the integer status bitmask (`bin(st)` in the
source requires an integer, and the status word is non-negative); `gf` and
`numGps` are numeric-or-NaN, `none` standing for NaN; `time` is `none` when
the `OBS_Time` cell is empty (NaN). -/
structure RawRecord where
  time : Option String
  st : Nat
  sondeN : String
  gf : Option ℚ
  numGps : Option ℚ
  wd : Cell
  ws : Cell
  height : Cell
  dx : Cell
  dy : Cell
  lat : Cell
  lon : Cell
  pressure : Cell
  temperature : Cell
  rh : Cell
deriving DecidableEq

/-! Python `bin` and negative string indexing

The source tests status bits with `st = bin(st)` followed by
`st[-1] != "1"` and `st[-3] != "1"`.  `bin(n)` for a non-negative integer
`n` is the string `"0b"` followed by the binary digits of `n`, most
significant first and with no leading zeros, except that `bin(0) = "0b0"`.
`binDigitsRev n` is that digit list, built least-significant-first (it is
reversed inside `pyBin`); the `fuel` argument of the auxiliary function
only makes the recursion structural, `fuel > n` always holds. -/

def binDigitsRevAux : Nat → Nat → List Char
  | n, 0 => [Nat.digitChar (n % 2)]
  | n, fuel + 1 =>
    if n < 2 then [Nat.digitChar n]
    else Nat.digitChar (n % 2) :: binDigitsRevAux (n / 2) fuel

lemma binDigitsRevAux_congr : ∀ (f1 f2 n : Nat), n < f1 → n < f2 →
    binDigitsRevAux n f1 = binDigitsRevAux n f2 := by
  intro f1
  induction f1 with
  | zero => intro f2 n h1 _; omega
  | succ g ih =>
    intro f2 n h1 h2
    cases f2 with
    | zero => omega
    | succ f =>
      simp only [binDigitsRevAux]
      by_cases hn : n < 2
      · simp [hn]
      · simp only [hn, if_false]
        rw [ih f (n / 2) (by omega) (by omega)]

/-- Binary digits of `n`, least significant first; `binDigitsRev 0 = ['0']`. -/
def binDigitsRev (n : Nat) : List Char := binDigitsRevAux n (n + 1)

lemma binDigitsRev_def (n : Nat) :
    binDigitsRev n =
      if n < 2 then [Nat.digitChar n]
      else Nat.digitChar (n % 2) :: binDigitsRev (n / 2) := by
  show binDigitsRevAux n (n + 1) = _
  simp only [binDigitsRevAux]
  by_cases hn : n < 2
  · simp [hn]
  · simp only [hn, if_false]
    rw [binDigitsRevAux_congr n (n / 2 + 1) (n / 2) (by omega) (by omega)]
    rfl

/-- Python `bin` for a non-negative integer. -/
def pyBin (n : Nat) : String := String.mk ('0' :: 'b' :: (binDigitsRev n).reverse)

/-- Python negative string index: `charFromEnd s k` models `s[-k]`
(`none` when the index is out of range; for `pyBin` strings, whose length
is at least 3, the indices `-1` and `-3` are always in range). -/
def charFromEnd (s : String) (k : Nat) : Option Char := s.data.reverse.get? (k - 1)

lemma binDigitsRev_head (n : Nat) :
    (binDigitsRev n).head? = some (Nat.digitChar (n % 2)) := by
  rw [binDigitsRev_def]
  by_cases hn : n < 2
  · have : n % 2 = n := by omega
    simp [hn, this]
  · simp [hn]

lemma charFromEnd_pyBin (n k : Nat) :
    charFromEnd (pyBin n) k = (binDigitsRev n ++ ['b', '0']).get? (k - 1) := by
  unfold charFromEnd pyBin
  congr 1
  show ('0' :: 'b' :: (binDigitsRev n).reverse).reverse = _
  simp

lemma charFromEnd_pyBin_one (n : Nat) :
    charFromEnd (pyBin n) 1 = some (Nat.digitChar (n % 2)) := by
  rw [charFromEnd_pyBin]
  have h : (binDigitsRev n).head? = some (Nat.digitChar (n % 2)) := binDigitsRev_head n
  cases hb : binDigitsRev n with
  | nil => rw [hb] at h; simp at h
  | cons c cs =>
    rw [hb] at h
    simp only [List.head?_cons, Option.some.injEq] at h
    simp [h]

lemma charFromEnd_pyBin_three (n : Nat) :
    charFromEnd (pyBin n) 3 =
      some (if 4 ≤ n then Nat.digitChar (n / 4 % 2) else if 2 ≤ n then 'b' else '0') := by
  rw [charFromEnd_pyBin]
  by_cases h4 : 4 ≤ n
  · -- two unfoldings expose the first two digits; the third is the head of
    -- the digits of `n / 4`
    rw [binDigitsRev_def]
    simp only [show ¬ n < 2 by omega, if_false]
    rw [binDigitsRev_def]
    simp only [show ¬ n / 2 < 2 by omega, if_false]
    have hdiv : n / 2 / 2 = n / 4 := by omega
    rw [hdiv]
    have h := binDigitsRev_head (n / 4)
    cases hb : binDigitsRev (n / 4) with
    | nil => rw [hb] at h; simp at h
    | cons c cs =>
      rw [hb] at h
      simp only [List.head?_cons, Option.some.injEq] at h
      simp [h, h4]
  · by_cases h2 : 2 ≤ n
    · -- `n ∈ {2, 3}`: the digit list has length 2 and `s[-3]` is `'b'`
      rw [binDigitsRev_def]
      simp only [show ¬ n < 2 by omega, if_false]
      rw [binDigitsRev_def]
      simp only [show n / 2 < 2 by omega, if_true]
      simp [h4, h2]
    · -- `n ∈ {0, 1}`: the digit list has length 1 and `s[-3]` is `'0'`
      rw [binDigitsRev_def]
      simp only [show n < 2 by omega, if_true]
      simp [h4, h2]

lemma digitChar_mod_two_eq_one_iff (n : Nat) :
    Nat.digitChar (n % 2) = '1' ↔ n % 2 = 1 := by
  rcases Nat.mod_two_eq_zero_or_one n with h | h <;> rw [h] <;> simp <;> decide

/-- The last character of `bin st` is `'1'` exactly when bit 0 of `st` is set. -/
lemma charFromEnd_one_iff (n : Nat) :
    charFromEnd (pyBin n) 1 = some '1' ↔ n.testBit 0 := by
  rw [charFromEnd_pyBin_one, Nat.testBit_to_div_mod]
  simp only [pow_zero, Nat.div_one, Option.some.injEq, decide_eq_true_eq]
  exact digitChar_mod_two_eq_one_iff n

/-- The third-from-last character of `bin st` is `'1'` exactly when bit 2 of
`st` is set; for `st < 4` that character is `'0'` or `'b'`, matching the
unset bit. -/
lemma charFromEnd_three_iff (n : Nat) :
    charFromEnd (pyBin n) 3 = some '1' ↔ n.testBit 2 := by
  rw [charFromEnd_pyBin_three, Nat.testBit_to_div_mod]
  simp only [Option.some.injEq, decide_eq_true_eq]
  by_cases h4 : 4 ≤ n
  · simp only [h4, if_true]
    have : (2 : Nat) ^ 2 = 4 := by norm_num
    rw [this]
    exact digitChar_mod_two_eq_one_iff (n / 4)
  · have : n / 2 ^ 2 = 0 := by omega
    rw [this]
    by_cases h2 : 2 ≤ n <;> simp [h4, h2]

/-! The record filter -/

/-- Pandas comparison `gf == 0` where `gf` may be NaN: `NaN == 0` is `False`. -/
def pyEqZero : Option ℚ → Bool
  | none => false
  | some v => v == 0

/-- Pandas comparison `num_gps < 4` where the value may be NaN:
`NaN < 4` is `False`. -/
def pyLtFour : Option ℚ → Bool
  | none => false
  | some v => decide (v < 4)

/-- The `if st[-1] != "1" / elif st[-3] != "1" / elif gf == 0 /
elif num_gps < 4` chain of the filtering loop: `true` means the record is
dropped. -/
def dropRecord (r : RawRecord) : Bool :=
  if charFromEnd (pyBin r.st) 1 ≠ some '1' then true
  else if charFromEnd (pyBin r.st) 3 ≠ some '1' then true
  else if pyEqZero r.gf then true
  else if pyLtFour r.numGps then true
  else false

/-- `df = df[df["SondeN"] == sonde_no]` (order preserved). -/
def matchSonde (sonde : String) (rows : List RawRecord) : List RawRecord :=
  rows.filter (fun r => r.sondeN == sonde)

/-- The filtering loop.  The Python loop iterates `i` over the original
labels `0 .. len(df)-1` (the index was just reset), reads each row with the
label-based `.loc[i]` from the original values, and drops row `i` by label;
no label is ever revisited, so the loop is a pure filter of the original
rows, in order. -/
def recordFilter (rows : List RawRecord) : List RawRecord :=
  rows.filter (fun r => !(dropRecord r))

/-- The keep-condition as the specification states it (§4.1): sonde
identifier matches, status bit 0 and bit 2 set, GPS-fix code nonzero and
satellite count at least 4.  Written from the spec's words for comparison
with `recordFilter`; a missing field satisfies neither of its conditions. -/
def specKeep (sonde : String) (r : RawRecord) : Bool :=
  (r.sondeN == sonde) && r.st.testBit 0 && r.st.testBit 2 &&
    (match r.gf with
     | some g => g != 0
     | none => false) &&
    (match r.numGps with
     | some m => decide (4 ≤ m)
     | none => false)

lemma dropRecord_eq_false_iff (r : RawRecord) :
    dropRecord r = false ↔
      (r.st.testBit 0 ∧ r.st.testBit 2 ∧
        pyEqZero r.gf = false ∧ pyLtFour r.numGps = false) := by
  unfold dropRecord
  rw [← charFromEnd_one_iff, ← charFromEnd_three_iff]
  split_ifs with h1 h2 h3 h4
  · simp [h1]
  · simp [h2]
  · simp [h3]
  · simp [h4]
  · simp only [Bool.not_eq_true] at h3 h4
    simp only [not_not] at h1 h2
    simp [h1, h2, h3, h4]

lemma and_pow_ne_zero_iff (n i : Nat) : n &&& 2 ^ i ≠ 0 ↔ n.testBit i := by
  rw [Nat.and_two_pow]
  cases h : n.testBit i
  · simp
  · simp only [Bool.toNat_true, one_mul, iff_true]
    exact pow_ne_zero i (by norm_num)

lemma keep_eq_spec (sonde : String) (r : RawRecord) (g m : ℚ)
    (hg : r.gf = some g) (hm : r.numGps = some m) :
    ((r.sondeN == sonde) && !(dropRecord r)) = specKeep sonde r := by
  unfold specKeep
  rw [hg, hm, Bool.eq_iff_iff]
  simp only [Bool.and_eq_true, Bool.not_eq_true', decide_eq_true_eq, bne_iff_ne]
  rw [dropRecord_eq_false_iff]
  unfold pyEqZero pyLtFour
  rw [hg, hm]
  simp only [beq_eq_false_iff_ne, decide_eq_false_iff_not, not_lt, and_assoc]

/-- C8: for every non-negative integer status value, the source's
binary-string tests (last character of `bin(status)` equal to `'1'`, and
third-from-last character equal to `'1'`) accept the record exactly when
the direct bitwise tests `status &&& 0b1 ≠ 0` and `status &&& 0b100 ≠ 0`
both hold, including for status values below 4 whose binary string has
fewer than three digits. -/
theorem C8_bin_string_eq_bitwise (st : Nat) :
    (charFromEnd (pyBin st) 1 = some '1' ∧ charFromEnd (pyBin st) 3 = some '1') ↔
      (st &&& 1 ≠ 0 ∧ st &&& 4 ≠ 0) := by
  rw [charFromEnd_one_iff, charFromEnd_three_iff]
  constructor
  · rintro ⟨ha, hb⟩
    exact ⟨(and_pow_ne_zero_iff st 0).mpr ha, (and_pow_ne_zero_iff st 2).mpr hb⟩
  · rintro ⟨ha, hb⟩
    exact ⟨(and_pow_ne_zero_iff st 0).mp ha, (and_pow_ne_zero_iff st 2).mp hb⟩

/-- C1: on records whose GPS-fix and satellite-count fields are present,
the filtering pass of `data_qc` (sonde-identifier selection followed by the
status/GPS drop loop) keeps exactly the records satisfying the four spec
conditions — status bit 0 set, status bit 2 set, GPS-fix code nonzero,
satellite count at least 4 — and preserves their original order. -/
theorem C1_record_filter_correct (sonde : String) (rows : List RawRecord)
    (h : ∀ r ∈ rows, r.gf ≠ none ∧ r.numGps ≠ none) :
    recordFilter (matchSonde sonde rows) = rows.filter (specKeep sonde) := by
  unfold recordFilter matchSonde
  rw [List.filter_filter]
  refine List.filter_congr ?_
  intro r hr
  obtain ⟨hg, hm⟩ := h r hr
  obtain ⟨g, hg⟩ := Option.ne_none_iff_exists'.mp hg
  obtain ⟨m, hm⟩ := Option.ne_none_iff_exists'.mp hm
  rw [Bool.and_comm]
  exact keep_eq_spec sonde r g m hg hm

/-- A raw record with all ten castable cells numeric, for concrete
instances. -/
def sampleRaw (sonde : String) (st : Nat) (gf numGps : Option ℚ) : RawRecord :=
  { time := some ("00:10:05"), st := st, sondeN := sonde, gf := gf, numGps := numGps,
    wd := .num 0, ws := .num 1, height := .num 2, dx := .num 3, dy := .num 4,
    lat := .num 5, lon := .num 6, pressure := .num 7, temperature := .num 8,
    rh := .num 9 }

/-- Witness for C1 at a concrete input: with status 5 (bits 0 and 2 set)
and GPS fix 1, a record with satellite count 3 is dropped and one with
satellite count 4 is kept, in input order. -/
theorem C1_witness :
    (∀ r ∈ [sampleRaw ("S1") 5 (some 1) (some 3), sampleRaw ("S1") 5 (some 1) (some 4)],
        r.gf ≠ none ∧ r.numGps ≠ none) ∧
    recordFilter (matchSonde ("S1")
        [sampleRaw ("S1") 5 (some 1) (some 3), sampleRaw ("S1") 5 (some 1) (some 4)]) =
      [sampleRaw ("S1") 5 (some 1) (some 4)] :=
  ⟨by decide, by
    rw [C1_record_filter_correct ("S1") _ (by decide)]
    decide⟩

/-- C10 counterexample: a record whose status-bit tests pass and whose
GPS-fix code is missing (NaN) is nevertheless dropped, by the
satellite-count test on its present count 2 — so a missing GPS field does
not by itself make the filter keep the record. -/
theorem C10_counterexample :
    (charFromEnd (pyBin (sampleRaw ("S1") 5 none (some 2)).st) 1 = some '1' ∧
     charFromEnd (pyBin (sampleRaw ("S1") 5 none (some 2)).st) 3 = some '1') ∧
    (sampleRaw ("S1") 5 none (some 2)).gf = none ∧
    dropRecord (sampleRaw ("S1") 5 none (some 2)) = true := by
  decide

/-- C10 (amended): a missing value never satisfies its own drop test
(`NaN == 0` and `NaN < 4` both evaluate to false), so a record whose
status-bit tests pass and whose GPS-fix code and satellite count are both
missing is kept; a record with only one of them missing can still be
dropped by the other, present, field's test. -/
theorem C10_missing_gps_kept (r : RawRecord)
    (h1 : charFromEnd (pyBin r.st) 1 = some '1')
    (h2 : charFromEnd (pyBin r.st) 3 = some '1')
    (hg : r.gf = none) (hm : r.numGps = none) :
    pyEqZero r.gf = false ∧ pyLtFour r.numGps = false ∧ dropRecord r = false := by
  refine ⟨by rw [hg]; rfl, by rw [hm]; rfl, ?_⟩
  rw [dropRecord_eq_false_iff]
  exact ⟨(charFromEnd_one_iff r.st).mp h1, (charFromEnd_three_iff r.st).mp h2,
    by rw [hg]; rfl, by rw [hm]; rfl⟩

/-- Witness for C10 (amended) at a concrete record with both GPS fields
missing: it is not dropped. -/
theorem C10_witness :
    dropRecord (sampleRaw ("S1") 5 none none) = false :=
  (C10_missing_gps_kept (sampleRaw ("S1") 5 none none)
    (by decide) (by decide) rfl rfl).2.2

/-! FieldCaster: numeric coercion and the NaN drop -/

/-- `pd.to_numeric(errors="coerce")` on one cell: a numeric cell keeps its
value, a non-numeric string and an empty cell become NaN — coercion never
raises. -/
def toNumeric : Cell → Option ℚ
  | .num q => some q
  | .str _ => none
  | .na => none

/-- A record after the cast loop: the ten designated columns hold
numeric-or-NaN values, the `Time` column is untouched (string-or-NaN). -/
structure CastRecord where
  time : Option String
  wd : Option ℚ
  ws : Option ℚ
  height : Option ℚ
  dx : Option ℚ
  dy : Option ℚ
  lat : Option ℚ
  lon : Option ℚ
  pressure : Option ℚ
  temperature : Option ℚ
  rh : Option ℚ
deriving DecidableEq

/-- The cast loop `df[f] = df[f].apply(pd.to_numeric, errors="coerce")`,
applied to exactly the ten fields `WD WS Height Dx Dy Lat Lon Pressure
Temperature RH`; the `Time` column is not cast. -/
def castRecord (r : RawRecord) : CastRecord :=
  { time := r.time, wd := toNumeric r.wd, ws := toNumeric r.ws,
    height := toNumeric r.height, dx := toNumeric r.dx, dy := toNumeric r.dy,
    lat := toNumeric r.lat, lon := toNumeric r.lon,
    pressure := toNumeric r.pressure, temperature := toNumeric r.temperature,
    rh := toNumeric r.rh }

/-- The row test of `df.dropna(how="any")`: the row has a NaN in any of
its eleven columns — the ten cast columns or `Time`. -/
def hasNA (c : CastRecord) : Bool :=
  c.time.isNone || c.wd.isNone || c.ws.isNone || c.height.isNone ||
    c.dx.isNone || c.dy.isNone || c.lat.isNone || c.lon.isNone ||
    c.pressure.isNone || c.temperature.isNone || c.rh.isNone

/-- Cast, then `dropna(how="any")`, in source order. -/
def fieldCast (rows : List RawRecord) : List CastRecord :=
  (rows.map castRecord).filter (fun c => !(hasNA c))

/-- A fully populated record, as consumed by the dewpoint and time
stages. -/
structure SoundingRecord where
  time : String
  wd : ℚ
  ws : ℚ
  height : ℚ
  dx : ℚ
  dy : ℚ
  lat : ℚ
  lon : ℚ
  pressure : ℚ
  temperature : ℚ
  rh : ℚ
deriving DecidableEq

/-- Extraction of the values of a record with no NaN in any column. -/
def toComplete (c : CastRecord) : Option SoundingRecord := do
  let t ← c.time
  let wd ← c.wd
  let ws ← c.ws
  let height ← c.height
  let dx ← c.dx
  let dy ← c.dy
  let lat ← c.lat
  let lon ← c.lon
  let pressure ← c.pressure
  let temperature ← c.temperature
  let rh ← c.rh
  pure ⟨t, wd, ws, height, dx, dy, lat, lon, pressure, temperature, rh⟩

/-- The drop condition as the specification states it (§4.2): at least one
of the TEN cast fields is missing.  Written from the spec's words for
comparison with `hasNA`; note that it does not mention `Time`. -/
def specTenMissing (c : CastRecord) : Bool :=
  c.wd.isNone || c.ws.isNone || c.height.isNone || c.dx.isNone ||
    c.dy.isNone || c.lat.isNone || c.lon.isNone || c.pressure.isNone ||
    c.temperature.isNone || c.rh.isNone

lemma fieldCast_filterMap (rows : List RawRecord) :
    fieldCast rows = rows.filterMap
      (fun x => if hasNA (castRecord x) then none else some (castRecord x)) := by
  induction rows with
  | nil => rfl
  | cons r rs ih =>
    by_cases h : hasNA (castRecord r) <;>
      simp [fieldCast, List.filter_cons, List.filterMap_cons, h] <;>
      simpa [fieldCast] using ih

/-- The C1 sample record with the `Time` cell empty (NaN). -/
def rawNoTime : RawRecord :=
  { sampleRaw ("S1") 5 (some 1) (some 4) with time := none }

/-- C5 counterexample: a record whose ten cast fields are all numeric but
whose `Time` cell is NaN is dropped by `dropna(how="any")`, though none of
the ten designated fields is missing. -/
theorem C5_counterexample :
    specTenMissing (castRecord rawNoTime) = false ∧
    fieldCast [rawNoTime] = [] := by
  decide

/-- C5 (amended): exactly the ten designated fields are coerced and the
`Time` field is not altered; an unparseable value becomes missing rather
than raising; and the subsequent `dropna(how="any")` drops a record if and
only if at least one of the ten cast fields OR the `Time` field is missing
(not only the ten, as claimed).  The stage is a per-record `filterMap`, so
no record affects any other. -/
theorem C5_field_caster (rows : List RawRecord) (r : RawRecord) (s : String) :
    (castRecord r).time = r.time ∧
    toNumeric (Cell.str s) = none ∧
    (hasNA (castRecord r) = false ↔
      (specTenMissing (castRecord r) = false ∧ r.time ≠ none)) ∧
    fieldCast rows = rows.filterMap
      (fun x => if hasNA (castRecord x) then none else some (castRecord x)) := by
  refine ⟨rfl, rfl, ?_, fieldCast_filterMap rows⟩
  show hasNA (castRecord r) = false ↔ _
  unfold hasNA specTenMissing
  simp only [Bool.or_eq_false_iff, Option.isNone_eq_false_iff,
    Option.isSome_iff_ne_none, castRecord]
  tauto

/-! DewpointDeriver stage.

The source calls `mpcalc.dewpoint_from_relative_humidity(temp, rh)`.
metpy computes this as `dewpoint(rh * saturation_vapor_pressure(temp))`
with the Bolton (1980) saturation vapor pressure
`6.112 * exp(17.67 * T / (T + 243.5))` (T in °C) and
`dewpoint(e) = 243.5 * val / (17.67 - val)` where `val = log(e / 6.112)`.
Floating-point arithmetic is modelled by exact real arithmetic.  This does
not model one double-precision effect: when the Bolton exponent
`17.67 * T / (T + 243.5)` exceeds `ln(DBL_MAX) ≈ 709.78` — which happens
exactly for T in about (−249.73, −243.5) °C — `np.exp` overflows to `inf`
(a warning, not an exception) and metpy's `243.5·inf/(17.67−inf)` is NaN,
so the program stores the missing marker there.  Statements that
characterize exactly when the missing marker occurs therefore carry the
explicit no-overflow hypothesis `boltonExponent t ≤ expMax`. -/

noncomputable section

/-- metpy `saturation_vapor_pressure` (Bolton 1980), `t` in °C. -/
def saturationVaporPressure (t : ℝ) : ℝ :=
  6.112 * Real.exp (17.67 * t / (t + 243.5))

/-- metpy `dewpoint`: with `val = log(e / 6.112)` the dewpoint is
`243.5 * val / (17.67 - val)` °C. -/
def dewpointFromVaporPressure (e : ℝ) : ℝ :=
  243.5 * Real.log (e / 6.112) / (17.67 - Real.log (e / 6.112))

/-- metpy `dewpoint_from_relative_humidity(temperature, relative_humidity)`
= `dewpoint(relative_humidity * saturation_vapor_pressure(temperature))`. -/
def dewpoint_from_relative_humidity (t frac : ℝ) : ℝ :=
  dewpointFromVaporPressure (frac * saturationVaporPressure t)

/-- The humidity normalization `rh = 1.0 if rh > 100.0 else rh * 0.01`. -/
def normFrac (rh : ℚ) : ℝ := if 100 < rh then 1 else (rh : ℝ) * 0.01

/-- The per-record dewpoint computation of `data_qc`: NaN (the missing
marker, `none`) when `rh <= 1e-4`, otherwise metpy's dewpoint of the
normalized humidity fraction at the record's temperature. -/
def deriveDewpoint (rh t : ℚ) : Option ℝ :=
  if rh ≤ 1 / 10000 then none
  else some (dewpoint_from_relative_humidity (t : ℝ) (normFrac rh))

/-- The Magnus form exactly as the specification writes it (§4.3), with
the two constants left as parameters: `α = ln(frac) + a·T/(b+T)`. -/
def magnusAlpha (a b frac t : ℝ) : ℝ := Real.log frac + a * t / (b + t)

/-- The specification's `Td = b·α/(a−α)`. -/
def magnusTd (a b frac t : ℝ) : ℝ :=
  b * magnusAlpha a b frac t / (a - magnusAlpha a b frac t)

/-- The dewpoint loop `df.loc[i, "Dewpoint"] = dewpoint`: every record
receives a dewpoint value; no record is added or removed. -/
def dewStage (rs : List SoundingRecord) : List (SoundingRecord × Option ℝ) :=
  rs.map (fun r => (r, deriveDewpoint r.rh r.temperature))

end

/-- metpy's composition is exactly the Magnus form with the Bolton
constants `a = 17.67`, `b = 243.5` (for a positive humidity fraction). -/
lemma dewpoint_eq_magnus (t frac : ℝ) (h : 0 < frac) :
    dewpoint_from_relative_humidity t frac = magnusTd 17.67 243.5 frac t := by
  unfold dewpoint_from_relative_humidity dewpointFromVaporPressure
    saturationVaporPressure magnusTd magnusAlpha
  have hlog : Real.log (frac * (6.112 * Real.exp (17.67 * t / (t + 243.5))) / 6.112)
      = Real.log frac + 17.67 * t / (t + 243.5) := by
    rw [show frac * (6.112 * Real.exp (17.67 * t / (t + 243.5))) / 6.112
        = frac * Real.exp (17.67 * t / (t + 243.5)) by
      field_simp
      ring]
    rw [Real.log_mul (ne_of_gt h) (Real.exp_ne_zero _), Real.log_exp]
  rw [hlog]
  ring_nf

lemma log_half_bounds :
    -0.6931471808 < Real.log (1/2 : ℝ) ∧ Real.log (1/2 : ℝ) < -0.6931471803 := by
  have h1 := Real.log_two_gt_d9
  have h2 := Real.log_two_lt_d9
  rw [show (1/2 : ℝ) = 2⁻¹ by norm_num, Real.log_inv]
  constructor <;> linarith

lemma normFrac_fifty : normFrac 50 = 1/2 := by
  norm_num [normFrac]

lemma bolton_5020_bounds :
    9.2655 < magnusTd 17.67 243.5 (1/2 : ℝ) 20 ∧
      magnusTd 17.67 243.5 (1/2 : ℝ) 20 < 9.4 := by
  obtain ⟨hL1, hL2⟩ := log_half_bounds
  unfold magnusTd magnusAlpha
  set L := Real.log (1/2 : ℝ) with hLdef
  have hX : (17.67 : ℝ) * 20 / (243.5 + 20) = 353.4 / 263.5 := by norm_num
  rw [hX]
  have hden : (0:ℝ) < 17.67 - (L + 353.4 / 263.5) := by
    have : (353.4 / 263.5 : ℝ) < 1.3412 := by norm_num
    linarith
  constructor
  · rw [lt_div_iff₀ hden]
    have : (353.4 / 263.5 : ℝ) > 1.3411764 := by norm_num
    linarith
  · rw [div_lt_iff₀ hden]
    have : (353.4 / 263.5 : ℝ) < 1.3411765 := by norm_num
    linarith

lemma specMagnus_5020_ub : magnusTd 17.625 243.04 (1/2 : ℝ) 20 < 9.2655 := by
  obtain ⟨hL1, hL2⟩ := log_half_bounds
  unfold magnusTd magnusAlpha
  set L := Real.log (1/2 : ℝ) with hLdef
  have hX : (17.625 : ℝ) * 20 / (243.04 + 20) = 352.5 / 263.04 := by norm_num
  rw [hX]
  have hup : (352.5 / 263.04 : ℝ) < 1.3401004 := by norm_num
  have hden : (0:ℝ) < 17.625 - (L + 352.5 / 263.04) := by linarith
  rw [div_lt_iff₀ hden]
  linarith

lemma deriveDewpoint_fifty :
    deriveDewpoint 50 20 = some (magnusTd 17.67 243.5 (1/2 : ℝ) 20) := by
  unfold deriveDewpoint
  rw [if_neg (by norm_num)]
  rw [normFrac_fifty, dewpoint_eq_magnus ((20:ℚ):ℝ) (1/2) (by norm_num)]
  norm_num

/-- C3 counterexample: at RH = 50 %, T = 20 °C the computed dewpoint (the
Magnus form with metpy's Bolton constants a = 17.67, b = 243.5, which is
above 9.2655 °C) differs from the Magnus form with the spec's constants
a = 17.625, b = 243.04 (below 9.2655 °C), so the claimed equality fails at
this input. -/
theorem C3_counterexample :
    deriveDewpoint 50 20 ≠ some (magnusTd 17.625 243.04 (normFrac 50) 20) := by
  rw [deriveDewpoint_fifty, normFrac_fifty]
  intro hEq
  rw [Option.some.injEq] at hEq
  have h1 := bolton_5020_bounds.1
  have h2 := specMagnus_5020_ub
  rw [hEq] at h1
  linarith

/-- C3 (amended): for humidity above the missing threshold the computed
dewpoint equals the Magnus-form approximation
`α = ln(frac) + a·T/(b+T)`, `Td = b·α/(a−α)` with metpy's Bolton constants
a = 17.67 and b = 243.5 (not with a = 17.625, b = 243.04 as claimed); at
RH = 50.0, T = 20.0 the result is within 0.1 of 9.3 °C. -/
theorem C3_dewpoint_formula :
    (∀ rh t : ℚ, 1 / 10000 < rh →
      deriveDewpoint rh t = some (magnusTd 17.67 243.5 (normFrac rh) (t : ℝ))) ∧
    (∃ d : ℝ, deriveDewpoint 50 20 = some d ∧ |d - 9.3| ≤ 0.1) := by
  constructor
  · intro rh t h
    have hfrac : (0:ℝ) < normFrac rh := by
      unfold normFrac
      split_ifs with h100
      · norm_num
      · have : (0:ℚ) < rh := lt_trans (by norm_num) h
        have : (0:ℝ) < (rh : ℝ) := by exact_mod_cast this
        nlinarith
    unfold deriveDewpoint
    rw [if_neg (not_le.mpr h), dewpoint_eq_magnus (t : ℝ) (normFrac rh) hfrac]
  · refine ⟨magnusTd 17.67 243.5 (1/2 : ℝ) 20, deriveDewpoint_fifty, ?_⟩
    obtain ⟨hlo, hhi⟩ := bolton_5020_bounds
    rw [abs_le]
    constructor <;> linarith

/-- Witness for C3 (amended) at RH = 50, T = 20. -/
theorem C3_witness :
    deriveDewpoint 50 20 = some (magnusTd 17.67 243.5 (normFrac 50) ((20:ℚ) : ℝ)) :=
  C3_dewpoint_formula.1 50 20 (by norm_num)

/-- C4: humidity at most 1e-4 (percent units) yields the missing marker;
otherwise the percentage is normalized to a fraction — clamped to 1 when
above 100, divided by 100 otherwise — so RH = 0 yields missing, RH = 100
uses fraction 1, and RH = 150 is clamped to fraction 1 and yields the same
dewpoint as RH = 100 at equal temperature. -/
theorem C4_humidity_normalization (rh t : ℚ) :
    (rh ≤ 1 / 10000 → deriveDewpoint rh t = none) ∧
    (1 / 10000 < rh → deriveDewpoint rh t
        = some (dewpoint_from_relative_humidity (t : ℝ) (normFrac rh))) ∧
    (100 < rh → normFrac rh = 1) ∧
    (¬ 100 < rh → normFrac rh = (rh : ℝ) / 100) ∧
    normFrac 100 = 1 ∧
    deriveDewpoint 0 t = none ∧
    deriveDewpoint 150 t = deriveDewpoint 100 t := by
  refine ⟨?_, ?_, ?_, ?_, ?_, ?_, ?_⟩
  · intro h
    unfold deriveDewpoint
    rw [if_pos h]
  · intro h
    unfold deriveDewpoint
    rw [if_neg (not_le.mpr h)]
  · intro h
    unfold normFrac
    rw [if_pos h]
  · intro h
    unfold normFrac
    rw [if_neg h]
    ring
  · norm_num [normFrac]
  · unfold deriveDewpoint
    rw [if_pos (by norm_num)]
  · unfold deriveDewpoint
    rw [if_neg (by norm_num), if_neg (by norm_num)]
    have : normFrac 150 = normFrac 100 := by norm_num [normFrac]
    rw [this]

/-- Witness for C4 at concrete humidities: RH = 0 is missing, RH = 150
matches RH = 100, and RH = 100 uses fraction 1. -/
theorem C4_witness :
    deriveDewpoint 0 20 = none ∧ normFrac 100 = 1 ∧
      deriveDewpoint 150 20 = deriveDewpoint 100 20 :=
  ⟨(C4_humidity_normalization 0 20).1 (by norm_num),
   (C4_humidity_normalization 100 20).2.2.2.2.1,
   (C4_humidity_normalization 150 20).2.2.2.2.2.2⟩

/-- A calendar date (always copied from an already-valid `datetime`). -/
structure Date where
  year : Nat
  month : Nat
  day : Nat
deriving DecidableEq

/-- The time components accepted by `datetime(y, m, d, *parts)`. -/
structure TimeOfDay where
  hour : Nat
  minute : Nat
  second : Nat
  usec : Nat
deriving DecidableEq

/-- A resolved absolute timestamp. -/
structure DateTime where
  date : Date
  hour : Nat
  minute : Nat
  second : Nat
  usec : Nat
deriving DecidableEq

/-- `datetime(d.year, d.month, d.day, *t)`: combine a date with a time of
day. -/
def withDate (d : Date) (t : TimeOfDay) : DateTime :=
  ⟨d, t.hour, t.minute, t.second, t.usec⟩

/-- Python `s.split(":")` on the character list of `s`:
`"".split(":")` is `[""]`, and separators delimit possibly-empty groups. -/
def splitColon : List Char → List (List Char)
  | [] => [[]]
  | c :: rest =>
    match splitColon rest with
    | [] => [[]]
    | g :: gs => if c = ':' then [] :: g :: gs else (c :: g) :: gs

/-- The whitespace characters stripped by Python `int`. -/
def isPyWS (c : Char) : Bool :=
  c = ' ' || c = '\t' || c = '\n' || c = '\r' || c = '\x0b' || c = '\x0c'

def stripWS (ds : List Char) : List Char :=
  ((ds.dropWhile isPyWS).reverse.dropWhile isPyWS).reverse

/-- Decimal value of a digit string. -/
def digitsVal (ds : List Char) : Nat :=
  ds.foldl (fun a c => 10 * a + (c.toNat - 48)) 0

def parseDigitsAll (ds : List Char) : Option Nat :=
  if ds.isEmpty then none
  else if ds.all Char.isDigit then some (digitsVal ds) else none

/-- Python `int(s)` on the string shapes that occur here: optional
surrounding whitespace, an optional sign, then decimal digits.  (Python's
`int` additionally allows single underscores between digits; such strings
are not modelled and rejected.) -/
def parseIntPyL (ds : List Char) : Option Int :=
  match stripWS ds with
  | [] => none
  | c :: rest =>
    if c = '-' then (parseDigitsAll rest).map (fun n => -(n : Int))
    else if c = '+' then (parseDigitsAll rest).map (fun n => (n : Int))
    else (parseDigitsAll (c :: rest)).map (fun n => (n : Int))

/-- `[int(i) for i in df_time]`: every component must parse. -/
def parseAllInts : List (List Char) → Option (List Int)
  | [] => some []
  | p :: ps =>
    match parseIntPyL p, parseAllInts ps with
    | some v, some vs => some (v :: vs)
    | _, _ => none

/-- One range-checked component of the `datetime` constructor. -/
def fieldChk (v : Int) (bound : Nat) : Option Nat :=
  if 0 ≤ v ∧ v < bound then some v.toNat else none

/-- The `datetime(year, month, day, *parts)` call: the date components are
copied unchecked (they always come from an already-valid `datetime`); up
to four time components are accepted — hour, minute, second, microsecond,
missing ones defaulting to 0 — and range-checked as `datetime` does; five
or more components raise `TypeError` (`none`).  `split` never yields an
empty list, so the zero-component case cannot arise from a time string. -/
def pyTimeFields : List Int → Option TimeOfDay
  | [] => some ⟨0, 0, 0, 0⟩
  | [h] => (fieldChk h 24).map (fun hh => ⟨hh, 0, 0, 0⟩)
  | [h, mi] => do
    let hh ← fieldChk h 24
    let mm ← fieldChk mi 60
    pure ⟨hh, mm, 0, 0⟩
  | [h, mi, s] => do
    let hh ← fieldChk h 24
    let mm ← fieldChk mi 60
    let ss ← fieldChk s 60
    pure ⟨hh, mm, ss, 0⟩
  | [h, mi, s, us] => do
    let hh ← fieldChk h 24
    let mm ← fieldChk mi 60
    let ss ← fieldChk s 60
    let uu ← fieldChk us 1000000
    pure ⟨hh, mm, ss, uu⟩
  | _ => none

/-- One `Time` cell, parsed the way the loop body does it:
`t.split(":")`, `int` on each component, then the `datetime` call. -/
def timeParts (s : String) : Option TimeOfDay :=
  (parseAllInts (splitColon s.data)).bind pyTimeFields

/-- The timestamp loop: the first record is combined with the date passed
in (the launch date); each following record is combined with
`(withDate d t).date` — the date component of the previous record's
just-resolved timestamp. -/
def reconstructAux (d : Date) : List String → Option (List DateTime)
  | [] => some []
  | s :: rest =>
    match timeParts s with
    | none => none
    | some t =>
      match reconstructAux (withDate d t).date rest with
      | none => none
      | some out => some (withDate d t :: out)

@[simp] lemma withDate_date (d : Date) (t : TimeOfDay) : (withDate d t).date = d := rfl

lemma reconstructAux_spec (d : Date) (ts : List String) (out : List DateTime)
    (h : reconstructAux d ts = some out) :
    out.length = ts.length ∧
    ∀ i (hi : i < out.length) (hj : i < ts.length),
      ∃ t, timeParts (ts.get ⟨i, hj⟩) = some t ∧ out.get ⟨i, hi⟩ = withDate d t := by
  induction ts generalizing out with
  | nil =>
    unfold reconstructAux at h
    rw [Option.some.injEq] at h
    subst h
    refine ⟨rfl, ?_⟩
    intro i hi hj
    exact absurd hi (by simp)
  | cons s rest ih =>
    unfold reconstructAux at h
    split at h
    · exact absurd h (by simp)
    · rename_i t hts
      split at h
      · exact absurd h (by simp)
      · rename_i tail hrec
        rw [Option.some.injEq] at h
        subst h
        obtain ⟨hlen, hspec⟩ := ih tail hrec
        refine ⟨by simp [hlen], ?_⟩
        intro i hi hj
        cases i with
        | zero => exact ⟨t, hts, rfl⟩
        | succ k =>
          obtain ⟨t', h1, h2⟩ := hspec k (by simp at hi; omega) (by simp at hj; omega)
          exact ⟨t', h1, h2⟩

/-- C2: when the timestamp loop succeeds, it yields one timestamp per
record; record 0 combines the launch date with its own parsed time of day;
record i (i ≥ 1) combines the date component of record i−1's
already-resolved timestamp with record i's parsed time of day; and the
date is never advanced — every resolved timestamp carries the launch
date, even when a time of day decreases. -/
theorem C2_time_chaining (launch : Date) (ts : List String) (out : List DateTime)
    (h : reconstructAux launch ts = some out) :
    out.length = ts.length ∧
    (∀ (hi : 0 < out.length) (hj : 0 < ts.length),
      ∃ t, timeParts (ts.get ⟨0, hj⟩) = some t ∧
        out.get ⟨0, hi⟩ = withDate launch t) ∧
    (∀ i (hi : i + 1 < out.length) (hj : i + 1 < ts.length) (hk : i < out.length),
      ∃ t, timeParts (ts.get ⟨i + 1, hj⟩) = some t ∧
        out.get ⟨i + 1, hi⟩ = withDate ((out.get ⟨i, hk⟩).date) t) ∧
    (∀ i (hi : i < out.length), (out.get ⟨i, hi⟩).date = launch) := by
  obtain ⟨hlen, hspec⟩ := reconstructAux_spec launch ts out h
  refine ⟨hlen, ?_, ?_, ?_⟩
  · intro hi hj
    exact hspec 0 hi hj
  · intro i hi hj hk
    obtain ⟨t, h1, h2⟩ := hspec (i + 1) hi hj
    obtain ⟨t', h1', h2'⟩ := hspec i hk (by omega)
    refine ⟨t, h1, ?_⟩
    rw [h2, h2', withDate_date]
  · intro i hi
    obtain ⟨t, h1, h2⟩ := hspec i hi (by omega)
    rw [h2, withDate_date]

/-- Witness for C2: launch date 2024-01-01, record times "00:10:05" and
"00:10:35" resolve to 2024-01-01T00:10:05 and 2024-01-01T00:10:35; the
second record inherits the first record's (launch) date. -/
theorem C2_witness :
    reconstructAux ⟨2024, 1, 1⟩ [("00:10:05"), ("00:10:35")] =
      some [⟨⟨2024, 1, 1⟩, 0, 10, 5, 0⟩, ⟨⟨2024, 1, 1⟩, 0, 10, 35, 0⟩] ∧
    ([⟨⟨2024, 1, 1⟩, 0, 10, 5, 0⟩, ⟨⟨2024, 1, 1⟩, 0, 10, 35, 0⟩] : List DateTime).length =
      [("00:10:05"), ("00:10:35")].length :=
  ⟨by decide, (C2_time_chaining ⟨2024, 1, 1⟩ _ _ (by decide)).1⟩

/-- One "HH"-style component: exactly two decimal digits with value below
`bound`. -/
def twoDigitsLt (p : List Char) (bound : Nat) : Bool :=
  p.length == 2 && p.all Char.isDigit && decide (digitsVal p < bound)

/-- Well-formed "HH:MM:SS" as the specification means it: exactly three
colon-separated components, each two decimal digits, hour below 24 and
minute/second below 60.  Written from the spec's words. -/
def wellFormedHMS (s : String) : Bool :=
  match splitColon s.data with
  | [p1, p2, p3] => twoDigitsLt p1 24 && twoDigitsLt p2 60 && twoDigitsLt p3 60
  | _ => false

lemma not_digit_of_pyWS (c : Char) (h : isPyWS c = true) : c.isDigit = false := by
  unfold isPyWS at h
  simp only [Bool.or_eq_true, decide_eq_true_eq] at h
  rcases h with ((((h | h) | h) | h) | h) | h <;> subst h <;> decide

lemma pyWS_eq_false_of_digit (c : Char) (h : c.isDigit = true) : isPyWS c = false := by
  cases hw : isPyWS c
  · rfl
  · rw [not_digit_of_pyWS c hw] at h
    exact absurd h (by simp)

lemma dropWhile_digits (ds : List Char) (h : ds.all Char.isDigit = true) :
    ds.dropWhile isPyWS = ds := by
  cases ds with
  | nil => rfl
  | cons c cs =>
    have hc : c.isDigit = true := by
      rw [List.all_cons, Bool.and_eq_true] at h
      exact h.1
    rw [List.dropWhile_cons, pyWS_eq_false_of_digit c hc]
    simp

lemma stripWS_digits (ds : List Char) (h : ds.all Char.isDigit = true) :
    stripWS ds = ds := by
  unfold stripWS
  rw [dropWhile_digits ds h]
  have hrev : ds.reverse.all Char.isDigit = true := by
    rw [List.all_eq_true] at h ⊢
    intro x hx
    exact h x (List.mem_reverse.mp hx)
  rw [dropWhile_digits ds.reverse hrev, List.reverse_reverse]

lemma parseIntPyL_digits (ds : List Char) (hne : ds ≠ []) (h : ds.all Char.isDigit = true) :
    parseIntPyL ds = some (Int.ofNat (digitsVal ds)) := by
  cases ds with
  | nil => exact absurd rfl hne
  | cons c cs =>
    have hc : c.isDigit = true := by
      rw [List.all_cons, Bool.and_eq_true] at h
      exact h.1
    have hminus : ¬ c = '-' := by intro he; rw [he] at hc; exact absurd hc (by decide)
    have hplus : ¬ c = '+' := by intro he; rw [he] at hc; exact absurd hc (by decide)
    unfold parseIntPyL
    rw [stripWS_digits (c :: cs) h]
    simp only [hminus, hplus, if_false]
    unfold parseDigitsAll
    rw [if_neg (by simp), if_pos h]
    rfl

lemma fieldChk_natCast (n bound : Nat) (h : n < bound) :
    fieldChk ((n : Nat) : Int) bound = some n := by
  unfold fieldChk
  rw [if_pos ⟨Int.natCast_nonneg n, by exact_mod_cast h⟩]
  simp

lemma twoDigitsLt_parse (p : List Char) (bound : Nat) (h : twoDigitsLt p bound = true) :
    p ≠ [] ∧ p.all Char.isDigit = true ∧ digitsVal p < bound := by
  unfold twoDigitsLt at h
  rw [Bool.and_eq_true, Bool.and_eq_true] at h
  obtain ⟨⟨hl, hd⟩, hv⟩ := h
  refine ⟨?_, hd, of_decide_eq_true hv⟩
  intro he
  rw [he] at hl
  simp at hl

lemma timeParts_of_wellFormed (s : String) (h : wellFormedHMS s = true) :
    (timeParts s).isSome = true := by
  unfold wellFormedHMS at h
  split at h
  · rename_i p1 p2 p3 heq
    rw [Bool.and_eq_true, Bool.and_eq_true] at h
    obtain ⟨⟨h1, h2⟩, h3⟩ := h
    obtain ⟨hne1, hd1, hv1⟩ := twoDigitsLt_parse p1 24 h1
    obtain ⟨hne2, hd2, hv2⟩ := twoDigitsLt_parse p2 60 h2
    obtain ⟨hne3, hd3, hv3⟩ := twoDigitsLt_parse p3 60 h3
    unfold timeParts
    rw [heq]
    have e1 := parseIntPyL_digits p1 hne1 hd1
    have e2 := parseIntPyL_digits p2 hne2 hd2
    have e3 := parseIntPyL_digits p3 hne3 hd3
    have hall : parseAllInts [p1, p2, p3] =
        some [Int.ofNat (digitsVal p1), Int.ofNat (digitsVal p2),
          Int.ofNat (digitsVal p3)] := by
      simp [parseAllInts, e1, e2, e3]
    rw [hall]
    show (pyTimeFields [Int.ofNat (digitsVal p1), Int.ofNat (digitsVal p2),
      Int.ofNat (digitsVal p3)]).isSome = true
    simp [pyTimeFields, fieldChk_natCast _ _ hv1, fieldChk_natCast _ _ hv2,
      fieldChk_natCast _ _ hv3]
  · exact absurd h (by simp)

lemma reconstructAux_isSome_iff (d : Date) (ts : List String) :
    (reconstructAux d ts).isSome = true ↔ ∀ s ∈ ts, (timeParts s).isSome = true := by
  induction ts generalizing d with
  | nil => simp [reconstructAux]
  | cons s rest ih =>
    have hstep : reconstructAux d (s :: rest) =
        match timeParts s with
        | none => none
        | some t =>
          match reconstructAux d rest with
          | none => none
          | some out => some (withDate d t :: out) := by
      conv_lhs => unfold reconstructAux
      cases timeParts s <;> rfl
    rw [hstep]
    cases hts : timeParts s with
    | none =>
      constructor
      · intro hfalse; simp at hfalse
      · intro hall
        have hs := hall s (List.mem_cons_self s rest)
        rw [hts] at hs
        simp at hs
    | some t =>
      cases hrec : reconstructAux d rest with
      | none =>
        constructor
        · intro hfalse; simp at hfalse
        · intro hall
          have hrest : (reconstructAux d rest).isSome = true :=
            (ih d).mpr (fun s' hs' => hall s' (List.mem_cons_of_mem s hs'))
          rw [hrec] at hrest
          simp at hrest
      | some tail =>
        constructor
        · intro _ s' hs'
          rcases List.mem_cons.mp hs' with he | hm
          · subst he; rw [hts]; rfl
          · have hrest : (reconstructAux d rest).isSome = true := by rw [hrec]; rfl
            exact ((ih d).mp hrest) s' hm
        · intro _; rfl

/-- C9 (amended): the timestamp loop cannot fail when every record's time
string is accepted by the `split` / `int` / `datetime` pipeline — in
particular it cannot fail when all time strings are well-formed
"HH:MM:SS" — and it fails exactly when some record's time string is
rejected (a component that does not parse as an integer, an out-of-range
component, or more than four components).  However, a malformed string
that still splits into one to four in-range integer components is NOT
rejected: the sounding does not fail, missing components default to zero
and a fourth component becomes microseconds. -/
theorem C9_malformed_time (launch : Date) (ts : List String) :
    ((reconstructAux launch ts).isSome = true ↔
      ∀ s ∈ ts, (timeParts s).isSome = true) ∧
    (∀ s ∈ ts, wellFormedHMS s = true → (timeParts s).isSome = true) :=
  ⟨reconstructAux_isSome_iff launch ts, fun s _ h => timeParts_of_wellFormed s h⟩

/-- C9 counterexample: the malformed time string "10:05" (not of the form
"HH:MM:SS") does not make the sounding fail: the code happily builds
`datetime(2024, 1, 1, 10, 5)`, i.e. 2024-01-01T10:05:00, with the second
defaulted to zero. -/
theorem C9_counterexample :
    wellFormedHMS ("10:05") = false ∧
    reconstructAux ⟨2024, 1, 1⟩ [("10:05")] =
      some [⟨⟨2024, 1, 1⟩, 10, 5, 0, 0⟩] := by
  decide

/-- Witness for C9 at a concrete well-formed sounding. -/
theorem C9_witness :
    (reconstructAux ⟨2024, 1, 1⟩ [("00:10:05")]).isSome = true :=
  (C9_malformed_time ⟨2024, 1, 1⟩ [("00:10:05")]).1.mpr
    (by intro s hs; rw [List.mem_singleton] at hs; subst hs; decide)

/-! The whole transform `data_qc`. -/

/-- One output record
`{Time, WindDirection, WindSpeed, Height, Dx, Dy, Latitude, Longitude,
Pressure, Temperature, RelativeHumidity, Dewpoint}`. -/
structure OutRecord where
  time : DateTime
  wd : ℚ
  ws : ℚ
  height : ℚ
  dx : ℚ
  dy : ℚ
  lat : ℚ
  lon : ℚ
  pressure : ℚ
  temperature : ℚ
  rh : ℚ
  dewpoint : Option ℝ

/-- Assemble the output from the surviving records with their dewpoints,
and the reconstructed timestamps. -/
noncomputable def buildOut (rs : List (SoundingRecord × Option ℝ))
    (ts : List DateTime) : List OutRecord :=
  List.zipWith (fun rd t =>
    { time := t, wd := rd.1.wd, ws := rd.1.ws, height := rd.1.height,
      dx := rd.1.dx, dy := rd.1.dy, lat := rd.1.lat, lon := rd.1.lon,
      pressure := rd.1.pressure, temperature := rd.1.temperature,
      rh := rd.1.rh, dewpoint := rd.2 }) rs ts

/-- The whole single-sounding transform.  `raw = none` models
`FileNotFoundError` from `pd.read_csv` (caught, returning `None`);
`Except.error ()` models any other exception escaping `data_qc` (only
`FileNotFoundError` is caught); `Except.ok none` is the Python `None`
result; `Except.ok (some out)` is the returned DataFrame. -/
noncomputable def data_qc (launch : Date) (sonde : String)
    (raw : Option (List RawRecord)) : Except Unit (Option (List OutRecord)) :=
  match raw with
  | none => .ok none
  | some rows =>
    let matched := matchSonde sonde rows
    if matched.isEmpty then .ok none
    else
      let kept := recordFilter matched
      let survivors := (fieldCast kept).filterMap toComplete
      if survivors.isEmpty then .ok none
      else
        match reconstructAux launch (survivors.map (fun r => r.time)) with
        | none => .error ()
        | some times => .ok (some (buildOut (dewStage survivors) times))

/-- The caller `get_sonde_anl_data` writes a CSV for a sounding exactly
when `data_qc` returns a DataFrame (not `None`, and no exception). -/
def callerSaves : Except Unit (Option (List OutRecord)) → Bool
  | .ok (some _) => true
  | _ => false

/-- C6: when the raw file is not found, when zero records match the sonde
identifier, or when zero records survive filtering and casting, `data_qc`
returns the explicit no-data value `None` — never an exception and never a
partial record sequence — and the caller writes no output for that
sounding. -/
theorem C6_empty_propagation (launch : Date) (sonde : String) :
    (data_qc launch sonde none = .ok none ∧
      callerSaves (data_qc launch sonde none) = false) ∧
    (∀ rows, matchSonde sonde rows = [] →
      data_qc launch sonde (some rows) = .ok none ∧
      callerSaves (data_qc launch sonde (some rows)) = false) ∧
    (∀ rows, (fieldCast (recordFilter (matchSonde sonde rows))).filterMap toComplete = [] →
      data_qc launch sonde (some rows) = .ok none ∧
      callerSaves (data_qc launch sonde (some rows)) = false) := by
  refine ⟨⟨rfl, rfl⟩, ?_, ?_⟩
  · intro rows h
    have hq : data_qc launch sonde (some rows) = .ok none := by
      simp [data_qc, h]
    exact ⟨hq, by rw [hq]; rfl⟩
  · intro rows h
    have hq : data_qc launch sonde (some rows) = .ok none := by
      by_cases hm : (matchSonde sonde rows).isEmpty
      · simp [data_qc, hm]
      · simp [data_qc, hm, h]
    exact ⟨hq, by rw [hq]; rfl⟩

/-- Witness for C6: a missing file and an empty raw record list both
yield `None`, and the caller writes nothing. -/
theorem C6_witness :
    data_qc ⟨2024, 1, 1⟩ ("S1") none = .ok none ∧
    data_qc ⟨2024, 1, 1⟩ ("S1") (some []) = .ok none :=
  ⟨(C6_empty_propagation ⟨2024, 1, 1⟩ ("S1")).1.1,
   ((C6_empty_propagation ⟨2024, 1, 1⟩ ("S1")).2.1 [] rfl).1⟩

end Seisuimaru
